import Mathlib

/-!
Shallow embedding of the operator runtime core of the `dora` dataflow engine:

* `src/binaries/runtime/src/operator/python.rs` — the Python operator host
  (`run`, its `python_runner` event loop, and the `SendOutputCallback`
  with its `allocate_sample` closure);
* `src/binaries/runtime/src/operator/mod.rs` — the operator supervisor
  (`run_operator`) and the event types;
* `src/libraries/communication-layer/src/iceoryx.rs` — the iceoryx
  transport adapter (`get_or_create_publisher`, `publisher`, `recv`).

External effects (filesystem, the Python interpreter, channels) are made
explicit: interpreter behaviour is an oracle (`StepSpec` per loop
iteration), channel sends become an event trace, and channel replies are
passed in as values.
-/

namespace Dora

/-- `StopReason` from `src/binaries/runtime/src/operator/mod.rs`. -/
inductive StopReason
  | InputsClosed
  | ExplicitStop
  | ExplicitStopAll
deriving DecidableEq, Repr

/-- `OperatorEvent` as sent by the Python host in
`src/binaries/runtime/src/operator/python.rs`: `Output` (we record the
output id and payload length), `AllocateOutputSample { len }`, `Error`,
`Panic`, and `Finished { reason }`.  Error reports and panic payloads are
opaque and not recorded. -/
inductive OperatorEvent
  | Output (output_id : String) (len : Nat)
  | AllocateOutputSample (len : Nat)
  | Error
  | Panic
  | Finished (reason : StopReason)
deriving DecidableEq, Repr

/-- Incoming `Event`s received by the Python host loop: `Stop`,
`Input { id, data }`, `InputClosed { id }`, `Reload`.  Metadata is not
modelled (it only affects telemetry). -/
inductive Event
  | Stop
  | Input (id : String) (data : List Nat)
  | InputClosed (id : String)
  | Reload
deriving DecidableEq, Repr

/-- A `Sample`: either the private aligned buffer produced by
`AVec::__from_elem(128, 0, data_len)` (alignment and byte contents
recorded), or a shared-memory loan obtained through the transport reply
channel (identified by an opaque id). -/
inductive Sample
  | privateBuf (align : Nat) (bytes : List Nat)
  | transportLoan (id : Nat)
deriving DecidableEq, Repr

/-- The `allocate_sample` closure of `SendOutputCallback::__call__`
(`python.rs` lines 318–335).  `threshold` is `ZERO_COPY_THRESHOLD` (a
compile-time constant imported from `dora_node_api`, outside the excerpted
sources, so kept as a parameter).  `reply` is what `rx.blocking_recv()`
would observe on the one-shot reply channel: `none` if the sender was
dropped, `some (Except.error ())` for an allocation failure, and
`some (Except.ok id)` for a granted loan.  The first component is the list
of events sent on `events_tx`. -/
def allocate_sample (threshold : Nat) (reply : Option (Except Unit Nat))
    (data_len : Nat) : List OperatorEvent × Except Unit Sample :=
  if threshold < data_len then
    ([OperatorEvent.AllocateOutputSample data_len],
      match reply with
      | none => Except.error ()
      | some (Except.error _) => Except.error ()
      | some (Except.ok loanId) => Except.ok (Sample.transportLoan loanId))
  else
    ([], Except.ok (Sample.privateBuf 128 (List.replicate data_len 0)))

/-- One `send_output` invocation made by the operator during `on_event`:
the output id, the computed payload size (`data.len()` for bytes,
`required_data_size` for an arrow array), the transport's reply should an
allocation be requested, and whether `pydict_to_metadata` succeeds. -/
structure SendAttempt where
  output_id : String
  len : Nat
  reply : Option (Except Unit Nat)
  metadataOk : Bool
deriving Repr

/-- Events sent on `events_tx` by one `SendOutputCallback::__call__`
invocation: the allocation request (if any), then — when the sample was
obtained and the metadata parsed — the `Output` event. -/
def sendAttemptEvents (threshold : Nat) (a : SendAttempt) : List OperatorEvent :=
  match allocate_sample threshold a.reply a.len with
  | (evs, Except.ok _) =>
      if a.metadataOk then evs ++ [OperatorEvent.Output a.output_id a.len] else evs
  | (evs, Except.error _) => evs

/-- Result of one `operator.call_method1(py, "on_event", ...)` and the
subsequent status extraction (`python.rs` lines 219–238): the call returned
an enum whose `.value` extracted to `status`; it returned a value without a
usable `.value` (`getattr`/`extract` failed); it raised a Python exception;
or the Rust side panicked during the call. -/
inductive CallOutcome
  | returns (status : Int)
  | returnsNonEnum
  | raises
  | panics
deriving Repr

/-- Oracle for one iteration of the host loop: the `send_output` calls the
operator makes during `on_event` (in order), and how the `on_event` call
ends. -/
structure StepSpec where
  sends : List SendAttempt
  outcome : CallOutcome
deriving Repr

/-- Events sent on `events_tx` during one `on_event` invocation. -/
def stepSendEvents (threshold : Nat) (step : StepSpec) : List OperatorEvent :=
  (step.sends.map (sendAttemptEvents threshold)).flatten

/-- Modelled from the spec: the `DoraStatus` return codes of
`dora_operator_api_types` (outside the excerpted sources) are
`Continue` (0), `Stop` (1), `StopAll` (2). -/
inductive DoraStatus
  | Continue
  | Stop
  | StopAll
deriving DecidableEq, Repr

/-- The integer value of a `DoraStatus` (`DoraStatus::… as i32`). -/
def DoraStatus.toInt : DoraStatus → Int
  | DoraStatus.Continue => 0
  | DoraStatus.Stop => 1
  | DoraStatus.StopAll => 2

/-- The sticky `reload` flag after the `if let Event::Reload` check at the
top of a loop iteration (`python.rs` line 128–129): a `Reload` event sets
it; every other event leaves it unchanged. -/
def reloadFlagAfter (reload : Bool) (ev : Event) : Bool :=
  match ev with
  | Event.Reload => true
  | _ => reload

/-- How `python_runner` ends: `Ok(reason)`, `Err(report)`, or a panic that
unwinds out of the closure. -/
inductive RunnerOutcome
  | finished (reason : StopReason)
  | errored
  | panicked
deriving DecidableEq, Repr

/-- The terminal event `run` sends for each `catch_unwind(closure)` result
(`python.rs` lines 261–271). -/
def terminalOf : RunnerOutcome → OperatorEvent
  | RunnerOutcome.finished r => OperatorEvent.Finished r
  | RunnerOutcome.errored => OperatorEvent.Error
  | RunnerOutcome.panicked => OperatorEvent.Panic

/-- The `loop` of `python_runner` (`python.rs` lines 124–246).  `steps i`
is the oracle for the `i`-th iteration.  Returns the events sent on
`events_tx` during the loop and the outcome.  An empty event list models a
closed incoming channel (`incoming_events.recv()` erring breaks with
`InputsClosed`).  A raised exception is downgraded to `Continue` when the
sticky `reload` flag is set, else it is a fatal error propagated by the
`?` after the GIL closure; a returned status is dispatched on the
`DoraStatus` values, any other value being fatal (`bail!`). -/
def runnerLoop (threshold : Nat) (steps : Nat → StepSpec) :
    Nat → Bool → List Event → List OperatorEvent × RunnerOutcome
  | _, _, [] => ([], RunnerOutcome.finished StopReason.InputsClosed)
  | i, reload, ev :: rest =>
    let step := steps i
    let reloadNow := reloadFlagAfter reload ev
    let sendEvs := stepSendEvents threshold step
    match step.outcome with
    | CallOutcome.panics => (sendEvs, RunnerOutcome.panicked)
    | CallOutcome.returnsNonEnum => (sendEvs, RunnerOutcome.errored)
    | CallOutcome.raises =>
      if reloadNow then
        let next := runnerLoop threshold steps (i + 1) reloadNow rest
        (sendEvs ++ next.1, next.2)
      else (sendEvs, RunnerOutcome.errored)
    | CallOutcome.returns s =>
      if s = DoraStatus.Continue.toInt then
        let next := runnerLoop threshold steps (i + 1) reloadNow rest
        (sendEvs ++ next.1, next.2)
      else if s = DoraStatus.Stop.toInt then
        (sendEvs, RunnerOutcome.finished StopReason.ExplicitStop)
      else if s = DoraStatus.StopAll.toInt then
        (sendEvs, RunnerOutcome.finished StopReason.ExplicitStopAll)
      else (sendEvs, RunnerOutcome.errored)

/-- Outcomes of the external effects of the resolution phase of `run`
(`python.rs` lines 44–69): URL detection, download, path existence,
canonicalization, file stem presence and UTF-8 validity. -/
structure ResolveEnv where
  sourceIsUrl : Bool
  downloadOk : Bool
  pathExists : Bool
  canonicalizeOk : Bool
  hasFileStem : Bool
  fileStemUtf8 : Bool
deriving DecidableEq, Repr

/-- The resolution errors of `run`, in the order the code checks them. -/
inductive ResolveError
  | downloadFailed
  | missingFile
  | canonicalizeFailed
  | noFileStem
  | stemNotUtf8
deriving DecidableEq, Repr

/-- The resolution phase of `run` (`python.rs` lines 44–69): download when
the source is a URL, then the existence check, `canonicalize`, `file_stem`,
and the UTF-8 check on the stem.  Each failure returns early out of `run`
via `?` / `bail!`. -/
def resolveSource (env : ResolveEnv) : Except ResolveError Unit :=
  if env.sourceIsUrl && !env.downloadOk then Except.error ResolveError.downloadFailed
  else if !env.pathExists then Except.error ResolveError.missingFile
  else if !env.canonicalizeOk then Except.error ResolveError.canonicalizeFailed
  else if !env.hasFileStem then Except.error ResolveError.noFileStem
  else if !env.fileStemUtf8 then Except.error ResolveError.stemNotUtf8
  else Except.ok ()

/-- Observable result of one call to `run`: the events sent on
`events_tx`, the message sent on the `init_done` one-shot channel
(`some true` = `Ok(())`, `some false` = `Err(..)`, `none` = the sender was
dropped without sending), and whether `run` itself returned `Ok`. -/
structure RunResult where
  trace : List OperatorEvent
  initDoneMsg : Option Bool
  retOk : Bool
deriving DecidableEq, Repr

/-- The Python host `run` (`python.rs` lines 35–274).  `initOk` is the
oracle for `Python::with_gil(init_operator)` (module import, `Operator`
lookup, instantiation, descriptor injection).  On a resolution error `run`
returns `Err` before touching `init_done` or `events_tx`.  On init failure
it sends `Err` on `init_done`, `python_runner` bails, and `catch_unwind`
yields `Ok(Err(..))`, so an `Error` terminal event is sent.  Otherwise the
loop runs and exactly the terminal event for its outcome is appended. -/
def run (threshold : Nat) (env : ResolveEnv) (initOk : Bool)
    (steps : Nat → StepSpec) (events : List Event) : RunResult :=
  match resolveSource env with
  | Except.error _ => { trace := [], initDoneMsg := none, retOk := false }
  | Except.ok _ =>
    if initOk then
      let r := runnerLoop threshold steps 0 false events
      { trace := r.1 ++ [terminalOf r.2], initDoneMsg := some true, retOk := true }
    else
      { trace := [OperatorEvent.Error], initDoneMsg := some false, retOk := true }

/-- Whether an `OperatorEvent` is terminal (`Finished`, `Error`, `Panic`). -/
def isTerminal : OperatorEvent → Bool
  | OperatorEvent.Error => true
  | OperatorEvent.Panic => true
  | OperatorEvent.Finished _ => true
  | _ => false

/-- Lookup in a Python attribute mapping (`__dict__`), modelled as an
association list: the value at the first matching key. -/
def dictLookup {V : Type} (k : String) : List (String × V) → Option V
  | [] => none
  | p :: rest => if p.1 = k then some p.2 else dictLookup k rest

/-- The keys of an attribute mapping. -/
def dictKeys {V : Type} (d : List (String × V)) : List String :=
  d.map Prod.fst

/-- Setting one key in an attribute mapping: overwrite if present, append
otherwise (Python `dict` item assignment). -/
def dictInsert {V : Type} (d : List (String × V)) (k : String) (v : V) :
    List (String × V) :=
  if (dictLookup k d).isSome then
    d.map (fun p => if p.1 = k then (k, v) else p)
  else d ++ [(k, v)]

/-- Python `dict.update`: `d.update(src)` sets every key of `src` in `d`,
overwriting existing entries. -/
def dictUpdate {V : Type} (d src : List (String × V)) : List (String × V) :=
  src.foldl (fun acc p => dictInsert acc p.1 p.2) d

/-- The `Reload` branch of the host loop (`python.rs` lines 128–180):
save the current instance's `__dict__`; re-import and reload the module,
instantiate a fresh `Operator` (its `__init__` produces `__dict__` equal
to the `Except.ok` payload of `freshInstance`), then run
`new.__dict__.update(current.__dict__)`.  On any failure in the closure
the error is logged and the previous instance is kept. -/
def reloadOperator {V : Type} (current : List (String × V))
    (freshInstance : Except Unit (List (String × V))) : List (String × V) :=
  match freshInstance with
  | Except.error _ => current
  | Except.ok newState => dictUpdate newState current

/-- `OperatorSource` variants dispatched on by `run_operator`
(`mod.rs` lines 38–74). -/
inductive OperatorSource
  | sharedLibrary (source : String)
  | python (source : String)
  | wasm (source : String)
deriving DecidableEq, Repr

/-- What `run_operator` did for the given source kind. -/
inductive RunOperatorAction
  | ranSharedLibrary
  | ranPython
  | loggedWasmUnsupported
deriving DecidableEq, Repr

/-- `run_operator` (`mod.rs` lines 24–76), with the results of the two
hosts passed in as oracles.  `SharedLibrary` and `Python` sources run the
corresponding host and propagate its result via `?`; a `Wasm` source only
logs `tracing::error!("WASM operators are not supported yet")` and the
function falls through to `Ok(())`. -/
def run_operator (sharedLibResult pythonResult : Except Unit Unit) :
    OperatorSource → RunOperatorAction × Except Unit Unit
  | OperatorSource.sharedLibrary _ =>
      (RunOperatorAction.ranSharedLibrary, sharedLibResult)
  | OperatorSource.python _ => (RunOperatorAction.ranPython, pythonResult)
  | OperatorSource.wasm _ => (RunOperatorAction.loggedWasmUnsupported, Except.ok ())

/-- `IceoryxCommunicationLayer` (`iceoryx.rs` lines 9–13): the memoization
map from topic to the underlying `Arc<iceoryx_rs::Publisher<[u8]>>`.  Arc
identity is modelled by a `Nat` id; `nextArcId` supplies the fresh id for
the next created publisher. -/
structure IceoryxCommunicationLayer where
  group_name : String
  instance_name : String
  publishers : List (String × Nat)
  nextArcId : Nat
deriving DecidableEq, Repr

/-- `create_publisher` (`iceoryx.rs` lines 65–71): builds a fresh
underlying publisher for the topic, or fails (`IceoryxError`), per the
`createOk` oracle. -/
def create_publisher (createOk : String → Bool) (topic : String)
    (freshId : Nat) : Except Unit Nat :=
  if createOk topic then Except.ok freshId else Except.error ()

/-- `get_or_create_publisher` (`iceoryx.rs` lines 47–63): return the
memoized publisher for the topic if present; otherwise create one, insert
it into the map, and return it. -/
def get_or_create_publisher (createOk : String → Bool)
    (l : IceoryxCommunicationLayer) (topic : String) :
    Except Unit Nat × IceoryxCommunicationLayer :=
  match dictLookup topic l.publishers with
  | some p => (Except.ok p, l)
  | none =>
    match create_publisher createOk topic l.nextArcId with
    | Except.ok pub =>
      (Except.ok pub,
        { l with publishers := l.publishers ++ [(topic, pub)],
                 nextArcId := l.nextArcId + 1 })
    | Except.error e => (Except.error e, l)

/-- The `IceoryxPublisher` handle returned by
`IceoryxCommunicationLayer::publisher`: it wraps (a clone of) the shared
underlying publisher, identified by its id. -/
structure IceoryxPublisher where
  publisher : Nat
deriving DecidableEq, Repr

/-- `IceoryxCommunicationLayer::publisher` (`iceoryx.rs` lines 75–81):
`get_or_create_publisher`, its error boxed, its success wrapped into an
`IceoryxPublisher` handle around the shared underlying publisher. -/
def publisher (createOk : String → Bool) (l : IceoryxCommunicationLayer)
    (topic : String) :
    Except Unit IceoryxPublisher × IceoryxCommunicationLayer :=
  ((get_or_create_publisher createOk l topic).1.map
      (fun p => { publisher := p }),
   (get_or_create_publisher createOk l topic).2)

/-- A sequence of `publisher(topic)` calls on one
`IceoryxCommunicationLayer` (`&mut self` threading the state), returning
each call's result in order along with the final state. -/
def publisherCalls (createOk : String → Bool) :
    IceoryxCommunicationLayer → List String →
    List (Except Unit IceoryxPublisher) × IceoryxCommunicationLayer
  | l, [] => ([], l)
  | l, t :: ts =>
    let r := publisher createOk l t
    let rest := publisherCalls createOk r.2 ts
    (r.1 :: rest.1, rest.2)

/-- `IceoryxReceiver` (`iceoryx.rs` lines 118–120): its pending sample
queue. -/
structure IceoryxReceiver where
  queue : List (List Nat)
deriving DecidableEq, Repr

/-- `IceoryxReceiver::recv` (`iceoryx.rs` lines 122–131): wait, then
`take()` the next sample — `Ok(Some(sample.to_owned()))` if one is queued,
`Ok(None)` otherwise.  No path constructs an `Err`. -/
def recv (r : IceoryxReceiver) : Except Unit (Option (List Nat)) × IceoryxReceiver :=
  match r.queue with
  | [] => (Except.ok none, { queue := [] })
  | sample :: rest => (Except.ok (some sample), { queue := rest })

/-- A resolution environment in which every external step succeeds. -/
def goodResolveEnv : ResolveEnv :=
  { sourceIsUrl := false, downloadOk := true, pathExists := true,
    canonicalizeOk := true, hasFileStem := true, fileStemUtf8 := true }

/-- A resolution environment whose operator source path does not exist
(`!path.exists()` in `python.rs` line 59). -/
def missingFileEnv : ResolveEnv :=
  { sourceIsUrl := false, downloadOk := true, pathExists := false,
    canonicalizeOk := true, hasFileStem := true, fileStemUtf8 := true }

/-- An operator that makes no outputs and always raises in `on_event`. -/
def stepsRaises : Nat → StepSpec := fun _ => { sends := [], outcome := CallOutcome.raises }

/-- An operator that makes no outputs and always returns the given status. -/
def stepsReturns (s : Int) : Nat → StepSpec :=
  fun _ => { sends := [], outcome := CallOutcome.returns s }

/-- An operator whose `on_event` always panics on the Rust side. -/
def stepsPanics : Nat → StepSpec := fun _ => { sends := [], outcome := CallOutcome.panics }

end Dora

namespace Dora

/-- C2: `allocate_sample` issues exactly one `AllocateOutputSample { len }`
and its result is exactly the transport's reply when `len` exceeds the
threshold; otherwise it issues nothing and returns a private 128-byte
aligned, zero-initialized buffer of exactly `len` bytes. -/
theorem allocate_sample_threshold_policy (threshold data_len : Nat)
    (reply : Option (Except Unit Nat)) :
    (threshold < data_len →
      allocate_sample threshold reply data_len =
        ([OperatorEvent.AllocateOutputSample data_len],
          match reply with
          | none => Except.error ()
          | some (Except.error _) => Except.error ()
          | some (Except.ok loanId) => Except.ok (Sample.transportLoan loanId))) ∧
    (data_len ≤ threshold →
      allocate_sample threshold reply data_len =
        ([], Except.ok (Sample.privateBuf 128 (List.replicate data_len 0)))) := by
  constructor
  · intro h
    simp [allocate_sample, h]
  · intro h
    simp [allocate_sample, Nat.not_lt.mpr h]

/-- Witness for C2 at the spec's example threshold 1024: a 2048-byte
payload issues one allocation request and takes the granted loan; a
5-byte payload issues nothing and gets a private zeroed buffer. -/
theorem allocate_sample_threshold_policy_witness :
    allocate_sample 1024 (some (Except.ok 7)) 2048 =
      ([OperatorEvent.AllocateOutputSample 2048],
        Except.ok (Sample.transportLoan 7)) ∧
    allocate_sample 1024 (some (Except.ok 7)) 5 =
      ([], Except.ok (Sample.privateBuf 128 (List.replicate 5 0))) :=
  ⟨(allocate_sample_threshold_policy 1024 2048 (some (Except.ok 7))).1 (by decide),
   (allocate_sample_threshold_policy 1024 5 (some (Except.ok 7))).2 (by decide)⟩

lemma dictLookup_eq_none_of_not_mem_keys {V : Type} (d : List (String × V))
    (k : String) (h : k ∉ dictKeys d) : dictLookup k d = none := by
  induction d with
  | nil => rfl
  | cons p rest ih =>
    simp only [dictKeys, List.map_cons, List.mem_cons] at h
    push_neg at h
    have hp : p.1 ≠ k := fun hk => h.1 hk.symm
    simp only [dictLookup, if_neg hp]
    exact ih (by simpa [dictKeys] using h.2)

lemma dictLookup_append {V : Type} (d e : List (String × V)) (k : String) :
    dictLookup k (d ++ e) =
      match dictLookup k d with
      | some v => some v
      | none => dictLookup k e := by
  induction d with
  | nil => rfl
  | cons p rest ih =>
    by_cases hp : p.1 = k
    · simp [dictLookup, hp]
    · simp only [List.cons_append, dictLookup, if_neg hp]
      exact ih

lemma dictLookup_map_overwrite_self {V : Type} (d : List (String × V))
    (k : String) (v : V) :
    dictLookup k (d.map (fun p => if p.1 = k then (k, v) else p)) =
      (dictLookup k d).map (fun _ => v) := by
  induction d with
  | nil => rfl
  | cons p rest ih =>
    by_cases hp : p.1 = k
    · simp [dictLookup, hp]
    · simp only [List.map_cons, if_neg hp, dictLookup, if_neg hp]
      exact ih

lemma dictLookup_map_overwrite_ne {V : Type} (d : List (String × V))
    (k k' : String) (v : V) (hne : k ≠ k') :
    dictLookup k' (d.map (fun p => if p.1 = k then (k, v) else p)) =
      dictLookup k' d := by
  induction d with
  | nil => rfl
  | cons p rest ih =>
    by_cases hp : p.1 = k
    · simp only [List.map_cons, if_pos hp, dictLookup, if_neg hne,
        if_neg (hp ▸ hne : p.1 ≠ k')]
      exact ih
    · simp only [List.map_cons, if_neg hp, dictLookup]
      by_cases hp' : p.1 = k'
      · simp [hp']
      · simp only [if_neg hp']
        exact ih

lemma dictLookup_dictInsert_self {V : Type} (d : List (String × V))
    (k : String) (v : V) : dictLookup k (dictInsert d k v) = some v := by
  unfold dictInsert
  by_cases h : (dictLookup k d).isSome
  · rw [if_pos h, dictLookup_map_overwrite_self]
    obtain ⟨w, hw⟩ := Option.isSome_iff_exists.mp h
    rw [hw]
    rfl
  · rw [if_neg h, dictLookup_append]
    rw [Option.not_isSome_iff_eq_none] at h
    rw [h]
    simp [dictLookup]

lemma dictLookup_dictInsert_ne {V : Type} (d : List (String × V))
    (k k' : String) (v : V) (hne : k ≠ k') :
    dictLookup k' (dictInsert d k v) = dictLookup k' d := by
  unfold dictInsert
  by_cases h : (dictLookup k d).isSome
  · rw [if_pos h, dictLookup_map_overwrite_ne d k k' v hne]
  · rw [if_neg h, dictLookup_append]
    cases hd : dictLookup k' d with
    | some w => rfl
    | none => simp [dictLookup, if_neg hne]

lemma dictLookup_dictUpdate {V : Type} (src : List (String × V))
    (hnodup : (dictKeys src).Nodup) (d : List (String × V)) (k : String) :
    dictLookup k (dictUpdate d src) =
      match dictLookup k src with
      | some v => some v
      | none => dictLookup k d := by
  induction src generalizing d with
  | nil => rfl
  | cons p rest ih =>
    simp only [dictKeys, List.map_cons, List.nodup_cons] at hnodup
    have step : dictUpdate d (p :: rest) = dictUpdate (dictInsert d p.1 p.2) rest := rfl
    rw [step]
    by_cases hk : p.1 = k
    · subst hk
      have hrest : dictLookup p.1 rest = none :=
        dictLookup_eq_none_of_not_mem_keys rest p.1 (by simpa [dictKeys] using hnodup.1)
      rw [ih hnodup.2 (dictInsert d p.1 p.2)]
      simp [dictLookup, hrest, dictLookup_dictInsert_self]
    · rw [ih hnodup.2 (dictInsert d p.1 p.2)]
      simp only [dictLookup, if_neg hk]
      cases hr : dictLookup k rest with
      | some v => simp
      | none => simp [dictLookup_dictInsert_ne d p.1 k p.2 hk]

/-- C3: on a successful `Reload`, the new instance's `__dict__` is the
fresh `__init__` state updated with the previous instance's mapping —
every key of the previous mapping keeps the previous instance's value
(overwriting the new `__init__`), and keys set only by the new `__init__`
keep their new values. -/
theorem reload_merges_previous_state {V : Type}
    (prev newInit : List (String × V)) (hnodup : (dictKeys prev).Nodup) :
    (∀ k v, dictLookup k prev = some v →
      dictLookup k (reloadOperator prev (Except.ok newInit)) = some v) ∧
    (∀ k, dictLookup k prev = none →
      dictLookup k (reloadOperator prev (Except.ok newInit)) = dictLookup k newInit) := by
  constructor
  · intro k v hk
    show dictLookup k (dictUpdate newInit prev) = some v
    rw [dictLookup_dictUpdate prev hnodup newInit k, hk]
  · intro k hk
    show dictLookup k (dictUpdate newInit prev) = dictLookup k newInit
    rw [dictLookup_dictUpdate prev hnodup newInit k, hk]

/-- Witness for C3, the spec's own example: the previous instance set
`x = 42`, the new `__init__` sets `x = 1` and `z = 3`; after the merge
`x = 42` and `z = 3`. -/
theorem reload_merges_previous_state_witness :
    dictLookup "x" (reloadOperator [("x", (42 : Nat))]
      (Except.ok [("x", 1), ("z", 3)])) = some 42 ∧
    dictLookup "z" (reloadOperator [("x", (42 : Nat))]
      (Except.ok [("x", 1), ("z", 3)])) = some 3 :=
  ⟨(reload_merges_previous_state [("x", 42)] [("x", 1), ("z", 3)]
      (by decide)).1 "x" 42 (by decide),
   by
    rw [(reload_merges_previous_state [("x", 42)] [("x", 1), ("z", 3)]
      (by decide)).2 "z" (by decide)]
    decide⟩

lemma runnerLoop_nil (threshold : Nat) (steps : Nat → StepSpec) (i : Nat)
    (reload : Bool) :
    runnerLoop threshold steps i reload [] =
      ([], RunnerOutcome.finished StopReason.InputsClosed) := rfl

lemma runnerLoop_cons (threshold : Nat) (steps : Nat → StepSpec) (i : Nat)
    (reload : Bool) (ev : Event) (rest : List Event) :
    runnerLoop threshold steps i reload (ev :: rest) =
      match (steps i).outcome with
      | CallOutcome.panics =>
        (stepSendEvents threshold (steps i), RunnerOutcome.panicked)
      | CallOutcome.returnsNonEnum =>
        (stepSendEvents threshold (steps i), RunnerOutcome.errored)
      | CallOutcome.raises =>
        if reloadFlagAfter reload ev then
          (stepSendEvents threshold (steps i) ++
            (runnerLoop threshold steps (i + 1) (reloadFlagAfter reload ev) rest).1,
           (runnerLoop threshold steps (i + 1) (reloadFlagAfter reload ev) rest).2)
        else (stepSendEvents threshold (steps i), RunnerOutcome.errored)
      | CallOutcome.returns s =>
        if s = DoraStatus.Continue.toInt then
          (stepSendEvents threshold (steps i) ++
            (runnerLoop threshold steps (i + 1) (reloadFlagAfter reload ev) rest).1,
           (runnerLoop threshold steps (i + 1) (reloadFlagAfter reload ev) rest).2)
        else if s = DoraStatus.Stop.toInt then
          (stepSendEvents threshold (steps i),
           RunnerOutcome.finished StopReason.ExplicitStop)
        else if s = DoraStatus.StopAll.toInt then
          (stepSendEvents threshold (steps i),
           RunnerOutcome.finished StopReason.ExplicitStopAll)
        else (stepSendEvents threshold (steps i), RunnerOutcome.errored) := rfl

lemma run_eq_of_resolve_error (threshold : Nat) (env : ResolveEnv)
    (initOk : Bool) (steps : Nat → StepSpec) (events : List Event)
    (e : ResolveError) (hres : resolveSource env = Except.error e) :
    run threshold env initOk steps events =
      { trace := [], initDoneMsg := none, retOk := false } := by
  unfold run
  rw [hres]

lemma run_eq_of_init_failed (threshold : Nat) (env : ResolveEnv)
    (steps : Nat → StepSpec) (events : List Event)
    (hres : resolveSource env = Except.ok ()) :
    run threshold env false steps events =
      { trace := [OperatorEvent.Error], initDoneMsg := some false, retOk := true } := by
  unfold run
  rw [hres]
  rfl

lemma run_eq_of_ok (threshold : Nat) (env : ResolveEnv)
    (steps : Nat → StepSpec) (events : List Event)
    (hres : resolveSource env = Except.ok ()) :
    run threshold env true steps events =
      { trace := (runnerLoop threshold steps 0 false events).1 ++
          [terminalOf (runnerLoop threshold steps 0 false events).2],
        initDoneMsg := some true, retOk := true } := by
  unfold run
  rw [hres]
  rfl

lemma allocate_sample_fst_eq {V : OperatorEvent} (threshold : Nat)
    (reply : Option (Except Unit Nat)) (data_len : Nat)
    (h : V ∈ (allocate_sample threshold reply data_len).1) :
    V = OperatorEvent.AllocateOutputSample data_len := by
  unfold allocate_sample at h
  by_cases hlt : threshold < data_len
  · rw [if_pos hlt] at h
    simpa using h
  · rw [if_neg hlt] at h
    simp at h

lemma isTerminal_sendAttemptEvents (threshold : Nat) (a : SendAttempt) :
    ∀ e ∈ sendAttemptEvents threshold a, isTerminal e = false := by
  intro e he
  unfold sendAttemptEvents at he
  split at he
  · next evs s heq =>
      split at he
      · rcases List.mem_append.mp he with h1 | h2
        · rw [allocate_sample_fst_eq threshold a.reply a.len
            (show e ∈ (allocate_sample threshold a.reply a.len).1 by
              rw [heq]; exact h1)]
          rfl
        · simp only [List.mem_singleton] at h2
          rw [h2]; rfl
      · rw [allocate_sample_fst_eq threshold a.reply a.len
          (show e ∈ (allocate_sample threshold a.reply a.len).1 by
            rw [heq]; exact he)]
        rfl
  · next evs u heq =>
      rw [allocate_sample_fst_eq threshold a.reply a.len
        (show e ∈ (allocate_sample threshold a.reply a.len).1 by
          rw [heq]; exact he)]
      rfl

lemma isTerminal_stepSendEvents (threshold : Nat) (step : StepSpec) :
    ∀ e ∈ stepSendEvents threshold step, isTerminal e = false := by
  intro e he
  unfold stepSendEvents at he
  rcases List.mem_flatten.mp he with ⟨l, hl, hel⟩
  rcases List.mem_map.mp hl with ⟨a, _, rfl⟩
  exact isTerminal_sendAttemptEvents threshold a e hel

lemma runnerLoop_no_terminal (threshold : Nat) (steps : Nat → StepSpec) :
    ∀ (events : List Event) (i : Nat) (reload : Bool),
      ∀ e ∈ (runnerLoop threshold steps i reload events).1, isTerminal e = false := by
  intro events
  induction events with
  | nil => intro i reload e he; rw [runnerLoop_nil] at he; simp at he
  | cons ev rest ih =>
    intro i reload e he
    rw [runnerLoop_cons] at he
    split at he
    · exact isTerminal_stepSendEvents threshold (steps i) e he
    · exact isTerminal_stepSendEvents threshold (steps i) e he
    · split at he
      · rcases List.mem_append.mp he with h1 | h2
        · exact isTerminal_stepSendEvents threshold (steps i) e h1
        · exact ih (i + 1) (reloadFlagAfter reload ev) e h2
      · exact isTerminal_stepSendEvents threshold (steps i) e he
    · split at he
      · rcases List.mem_append.mp he with h1 | h2
        · exact isTerminal_stepSendEvents threshold (steps i) e h1
        · exact ih (i + 1) (reloadFlagAfter reload ev) e h2
      · split at he
        · exact isTerminal_stepSendEvents threshold (steps i) e he
        · split at he
          · exact isTerminal_stepSendEvents threshold (steps i) e he
          · exact isTerminal_stepSendEvents threshold (steps i) e he

lemma isTerminal_terminalOf (o : RunnerOutcome) : isTerminal (terminalOf o) = true := by
  cases o with
  | finished r => rfl
  | errored => rfl
  | panicked => rfl

/-- C1 (amended): for every run whose source resolution succeeds, exactly
one terminal event (`Finished` / `Error` / `Panic`) is sent on the
operator events channel, and it is the last event on the channel. -/
theorem run_exactly_one_terminal (threshold : Nat) (env : ResolveEnv)
    (initOk : Bool) (steps : Nat → StepSpec) (events : List Event)
    (hres : resolveSource env = Except.ok ()) :
    ((run threshold env initOk steps events).trace.countP isTerminal = 1) ∧
    (∃ ev, (run threshold env initOk steps events).trace.getLast? = some ev ∧
      isTerminal ev = true) := by
  cases initOk with
  | false =>
    rw [run_eq_of_init_failed threshold env steps events hres]
    exact ⟨by decide, OperatorEvent.Error, by decide, rfl⟩
  | true =>
    rw [run_eq_of_ok threshold env steps events hres]
    have htr : ∀ e ∈ (runnerLoop threshold steps 0 false events).1,
        isTerminal e = false :=
      runnerLoop_no_terminal threshold steps events 0 false
    constructor
    · simp only
      rw [List.countP_append, List.countP_eq_zero.mpr (by intro a ha; simp [htr a ha])]
      simp [List.countP_cons, isTerminal_terminalOf]
    · refine ⟨terminalOf (runnerLoop threshold steps 0 false events).2, ?_,
        isTerminal_terminalOf _⟩
      simp only
      rw [List.getLast?_concat]

/-- Witness for C1 (amended): a run that resolves, inits, and whose
operator returns `Stop` on the first event. -/
theorem run_exactly_one_terminal_witness :
    ((run 1024 goodResolveEnv true (stepsReturns 1) [Event.Stop]).trace.countP
        isTerminal = 1) ∧
    (∃ ev, (run 1024 goodResolveEnv true (stepsReturns 1)
        [Event.Stop]).trace.getLast? = some ev ∧ isTerminal ev = true) :=
  run_exactly_one_terminal 1024 goodResolveEnv true (stepsReturns 1) [Event.Stop] rfl

/-- Counterexample to C1 as stated: a run whose operator source path does
not exist returns `Err` from `run` before the supervised phase, and no
terminal event at all is sent on the events channel. -/
theorem run_missing_file_no_terminal :
    ¬ (((run 1024 missingFileEnv true stepsRaises []).trace.countP isTerminal = 1) ∧
      (∃ ev, (run 1024 missingFileEnv true stepsRaises []).trace.getLast? = some ev ∧
        isTerminal ev = true)) := by
  have h : (run 1024 missingFileEnv true stepsRaises []).trace = [] := rfl
  rintro ⟨h1, -⟩
  rw [h] at h1
  simp at h1

/-- C4: when `on_event` returns status `s`, the loop continues on
`Continue` (0), exits with `ExplicitStop` on `Stop` (1), exits with
`ExplicitStopAll` on `StopAll` (2), and on any other integer ends with a
fatal error whose terminal event is `Error`. -/
theorem on_event_status_mapping (threshold : Nat) (steps : Nat → StepSpec)
    (i : Nat) (reload : Bool) (ev : Event) (rest : List Event) (s : Int)
    (hout : (steps i).outcome = CallOutcome.returns s) :
    (s = 0 →
      runnerLoop threshold steps i reload (ev :: rest) =
        (stepSendEvents threshold (steps i) ++
          (runnerLoop threshold steps (i + 1) (reloadFlagAfter reload ev) rest).1,
         (runnerLoop threshold steps (i + 1) (reloadFlagAfter reload ev) rest).2)) ∧
    (s = 1 →
      runnerLoop threshold steps i reload (ev :: rest) =
        (stepSendEvents threshold (steps i),
         RunnerOutcome.finished StopReason.ExplicitStop)) ∧
    (s = 2 →
      runnerLoop threshold steps i reload (ev :: rest) =
        (stepSendEvents threshold (steps i),
         RunnerOutcome.finished StopReason.ExplicitStopAll)) ∧
    (s ≠ 0 → s ≠ 1 → s ≠ 2 →
      runnerLoop threshold steps i reload (ev :: rest) =
        (stepSendEvents threshold (steps i), RunnerOutcome.errored) ∧
      terminalOf RunnerOutcome.errored = OperatorEvent.Error) := by
  rw [runnerLoop_cons, hout]
  refine ⟨?_, ?_, ?_, ?_⟩
  · intro h0
    subst h0
    simp [DoraStatus.toInt]
  · intro h1
    subst h1
    simp [DoraStatus.toInt]
  · intro h2
    subst h2
    simp [DoraStatus.toInt]
  · intro h0 h1 h2
    refine ⟨?_, rfl⟩
    simp [DoraStatus.toInt, h0, h1, h2]

/-- Witness for C4: an operator that returns `Stop` (1) on the first event
makes the loop exit with `ExplicitStop`. -/
theorem on_event_status_mapping_witness :
    runnerLoop 1024 (stepsReturns 1) 0 false [Event.Stop] =
      ([], RunnerOutcome.finished StopReason.ExplicitStop) := by
  have h := (on_event_status_mapping 1024 (stepsReturns 1) 0 false Event.Stop []
    1 rfl).2.1 rfl
  simpa [stepSendEvents, stepsReturns] using h

/-- C5: if the supervised host body panics, the outcome is reported with a
`Panic` terminal event — an `Error` event appears nowhere on the channel —
and `run` still returns `Ok`. -/
theorem panic_reported_as_panic (threshold : Nat) (env : ResolveEnv)
    (steps : Nat → StepSpec) (events : List Event)
    (hres : resolveSource env = Except.ok ())
    (hpanic : (runnerLoop threshold steps 0 false events).2 = RunnerOutcome.panicked) :
    (run threshold env true steps events).trace.getLast? = some OperatorEvent.Panic ∧
    OperatorEvent.Error ∉ (run threshold env true steps events).trace ∧
    (run threshold env true steps events).retOk = true := by
  rw [run_eq_of_ok threshold env steps events hres]
  refine ⟨?_, ?_, rfl⟩
  · simp only
    rw [List.getLast?_concat, hpanic]
    rfl
  · intro hmem
    simp only at hmem
    rcases List.mem_append.mp hmem with h1 | h2
    · have := runnerLoop_no_terminal threshold steps events 0 false
        OperatorEvent.Error h1
      simp [isTerminal] at this
    · rw [hpanic] at h2
      simp [terminalOf] at h2

/-- Witness for C5: an operator that panics on the first event. -/
theorem panic_reported_as_panic_witness :
    (run 1024 goodResolveEnv true stepsPanics [Event.Stop]).trace.getLast? =
      some OperatorEvent.Panic ∧
    OperatorEvent.Error ∉ (run 1024 goodResolveEnv true stepsPanics [Event.Stop]).trace ∧
    (run 1024 goodResolveEnv true stepsPanics [Event.Stop]).retOk = true :=
  panic_reported_as_panic 1024 goodResolveEnv stepsPanics [Event.Stop] rfl rfl

/-- C6: if `on_event` raises, the loop continues as if the status were
`Continue` when the sticky reload flag is set, and otherwise the run ends
with a fatal error whose terminal event is `Error`. -/
theorem raised_exception_reload_downgrade (threshold : Nat)
    (steps : Nat → StepSpec) (i : Nat) (reload : Bool) (ev : Event)
    (rest : List Event)
    (hout : (steps i).outcome = CallOutcome.raises) :
    (reloadFlagAfter reload ev = true →
      runnerLoop threshold steps i reload (ev :: rest) =
        (stepSendEvents threshold (steps i) ++
          (runnerLoop threshold steps (i + 1) (reloadFlagAfter reload ev) rest).1,
         (runnerLoop threshold steps (i + 1) (reloadFlagAfter reload ev) rest).2)) ∧
    (reloadFlagAfter reload ev = false →
      runnerLoop threshold steps i reload (ev :: rest) =
        (stepSendEvents threshold (steps i), RunnerOutcome.errored) ∧
      terminalOf RunnerOutcome.errored = OperatorEvent.Error) := by
  rw [runnerLoop_cons, hout]
  constructor
  · intro h
    simp [h]
  · intro h
    exact ⟨by simp [h], rfl⟩

/-- Witness for C6: a `Reload` event sets the sticky flag, so a raise on
that very event is downgraded and the loop continues (here to channel
closure, `InputsClosed`); without a prior `Reload`, the same raise is
fatal. -/
theorem raised_exception_reload_downgrade_witness :
    runnerLoop 1024 stepsRaises 0 false [Event.Reload] =
      ([], RunnerOutcome.finished StopReason.InputsClosed) ∧
    runnerLoop 1024 stepsRaises 0 false [Event.Stop] =
      ([], RunnerOutcome.errored) := by
  constructor
  · have h := (raised_exception_reload_downgrade 1024 stepsRaises 0 false
      Event.Reload [] rfl).1 rfl
    simpa [stepSendEvents, stepsRaises, runnerLoop_nil] using h
  · have h := ((raised_exception_reload_downgrade 1024 stepsRaises 0 false
      Event.Stop [] rfl).2 rfl).1
    simpa [stepSendEvents, stepsRaises] using h

/-- Counterexample to C7 as stated: a missing operator source file is a
resolution error, yet nothing is sent on the init-done channel — `run`
returns `Err` and the `init_done` sender is dropped without a message, so
no error report travels through that channel. -/
theorem resolution_error_not_reported_on_init_done :
    resolveSource missingFileEnv = Except.error ResolveError.missingFile ∧
    (run 1024 missingFileEnv true stepsRaises []).initDoneMsg ≠ some false ∧
    (run 1024 missingFileEnv true stepsRaises []).initDoneMsg = none := by
  refine ⟨rfl, ?_, rfl⟩
  intro h
  have h0 : (run 1024 missingFileEnv true stepsRaises []).initDoneMsg = none := rfl
  rw [h0] at h
  exact Option.noConfusion h

/-- C7 (amended): every resolution error is fatal at initialization —
`run` returns an error having sent nothing, with the init-done channel
closed without a message — while failures of the interpreter init section
are reported through the init-done channel as an `Err`. -/
theorem resolution_error_fatal (threshold : Nat) (env : ResolveEnv)
    (initOk : Bool) (steps : Nat → StepSpec) (events : List Event) :
    (∀ e, resolveSource env = Except.error e →
      run threshold env initOk steps events =
        { trace := [], initDoneMsg := none, retOk := false }) ∧
    (resolveSource env = Except.ok () →
      run threshold env false steps events =
        { trace := [OperatorEvent.Error], initDoneMsg := some false, retOk := true }) :=
  ⟨fun e h => run_eq_of_resolve_error threshold env initOk steps events e h,
   fun h => run_eq_of_init_failed threshold env steps events h⟩

/-- Witness for C7 (amended): a missing file resolves to an error and the
run returns `Err` without touching either channel; with a good
environment, an init failure is reported as `Err` on init-done. -/
theorem resolution_error_fatal_witness :
    run 1024 missingFileEnv true stepsRaises [] =
      { trace := [], initDoneMsg := none, retOk := false } ∧
    run 1024 goodResolveEnv false stepsRaises [] =
      { trace := [OperatorEvent.Error], initDoneMsg := some false, retOk := true } :=
  ⟨(resolution_error_fatal 1024 missingFileEnv true stepsRaises []).1
      ResolveError.missingFile rfl,
   (resolution_error_fatal 1024 goodResolveEnv false stepsRaises []).2 rfl⟩

/-- Counterexample to C8 as stated: for a `Wasm` source, `run_operator`
does not return an error — it returns `Ok(())` (after only logging). -/
theorem run_operator_wasm_counterexample :
    (run_operator (Except.ok ()) (Except.ok ())
      (OperatorSource.wasm "op.wasm")).2 = Except.ok () ∧
    ∀ e : Unit, (run_operator (Except.ok ()) (Except.ok ())
      (OperatorSource.wasm "op.wasm")).2 ≠ Except.error e := by
  refine ⟨rfl, ?_⟩
  intro e h
  exact Except.noConfusion h

/-- C8 (amended): for a `Wasm` source, `run_operator` logs the
"not supported" error and returns `Ok(())` without running either host. -/
theorem run_operator_wasm_unsupported
    (sharedLibResult pythonResult : Except Unit Unit) (source : String) :
    run_operator sharedLibResult pythonResult (OperatorSource.wasm source) =
      (RunOperatorAction.loggedWasmUnsupported, Except.ok ()) := rfl

lemma get_or_create_publisher_of_mem (createOk : String → Bool)
    (l : IceoryxCommunicationLayer) (topic : String) (p : Nat)
    (hlook : dictLookup topic l.publishers = some p) :
    get_or_create_publisher createOk l topic = (Except.ok p, l) := by
  unfold get_or_create_publisher
  rw [hlook]

lemma get_or_create_publisher_memo (createOk : String → Bool)
    (l l₁ : IceoryxCommunicationLayer) (topic : String) (p : Nat)
    (hcall : get_or_create_publisher createOk l topic = (Except.ok p, l₁)) :
    dictLookup topic l₁.publishers = some p := by
  unfold get_or_create_publisher at hcall
  split at hcall
  · next q heq =>
      injection hcall with h1 h2
      injection h1 with h1
      subst h2
      rw [heq, h1]
  · next heq =>
      split at hcall
      · next pub heq2 =>
          injection hcall with h1 h2
          injection h1 with h1
          rw [← h2]
          show dictLookup topic (l.publishers ++ [(topic, pub)]) = some p
          rw [dictLookup_append, heq]
          simp [dictLookup, h1]
      · next e heq2 =>
          injection hcall with h1 h2
          exact Except.noConfusion h1

lemma publisher_result_of_mem (createOk : String → Bool)
    (l : IceoryxCommunicationLayer) (topic : String) (p : Nat)
    (hmem : dictLookup topic l.publishers = some p) :
    publisher createOk l topic = (Except.ok { publisher := p }, l) := by
  unfold publisher
  rw [get_or_create_publisher_of_mem createOk l topic p hmem]
  rfl

lemma publisher_establishes_mem (createOk : String → Bool)
    (l l₁ : IceoryxCommunicationLayer) (topic : String) (h : IceoryxPublisher)
    (hcall : publisher createOk l topic = (Except.ok h, l₁)) :
    dictLookup topic l₁.publishers = some h.publisher := by
  unfold publisher at hcall
  have h2 : (get_or_create_publisher createOk l topic).2 = l₁ :=
    congrArg Prod.snd hcall
  have h1 : (get_or_create_publisher createOk l topic).1.map
      (fun p => ({ publisher := p } : IceoryxPublisher)) = Except.ok h :=
    congrArg Prod.fst hcall
  cases hr : (get_or_create_publisher createOk l topic).1 with
  | error e =>
    rw [hr] at h1
    exact absurd h1 (by simp [Except.map])
  | ok p =>
    rw [hr] at h1
    have hp : ({ publisher := p } : IceoryxPublisher) = h := by
      simpa [Except.map] using h1
    have hfull : get_or_create_publisher createOk l topic = (Except.ok p, l₁) := by
      rw [← hr, ← h2]
    have hmem : dictLookup topic l₁.publishers = some p :=
      get_or_create_publisher_memo createOk l l₁ topic p hfull
    rw [hmem, ← hp]

lemma publisher_preserves_lookup (createOk : String → Bool)
    (l : IceoryxCommunicationLayer) (topic topicOther : String) (p : Nat)
    (hmem : dictLookup topic l.publishers = some p) :
    dictLookup topic ((publisher createOk l topicOther).2).publishers = some p := by
  show dictLookup topic
    ((get_or_create_publisher createOk l topicOther).2).publishers = some p
  unfold get_or_create_publisher
  split
  · exact hmem
  · split
    · next pub heq2 =>
        show dictLookup topic (l.publishers ++ [(topicOther, pub)]) = some p
        rw [dictLookup_append, hmem]
    · exact hmem

lemma publisherCalls_cons (createOk : String → Bool)
    (l : IceoryxCommunicationLayer) (t : String) (ts : List String) :
    publisherCalls createOk l (t :: ts) =
      ((publisher createOk l t).1 ::
        (publisherCalls createOk (publisher createOk l t).2 ts).1,
       (publisherCalls createOk (publisher createOk l t).2 ts).2) := rfl

lemma publisherCalls_result_of_mem (createOk : String → Bool) (topic : String)
    (p : Nat) (ts : List String) :
    ∀ (l : IceoryxCommunicationLayer),
      dictLookup topic l.publishers = some p →
      ∀ (j : Nat) (h₂ : IceoryxPublisher), ts[j]? = some topic →
        (publisherCalls createOk l ts).1[j]? = some (Except.ok h₂) →
        h₂ = { publisher := p } := by
  induction ts with
  | nil =>
    intro l hmem j h₂ hj hr
    simp at hj
  | cons t ts ih =>
    intro l hmem j h₂ hj hr
    cases j with
    | zero =>
      simp at hj
      subst hj
      rw [publisherCalls_cons] at hr
      simp only [List.getElem?_cons_zero, Option.some_inj] at hr
      have h1 : (publisher createOk l t).1 = Except.ok { publisher := p } :=
        congrArg Prod.fst (publisher_result_of_mem createOk l t p hmem)
      rw [h1] at hr
      injection hr with hr
      exact hr.symm
    | succ j' =>
      rw [publisherCalls_cons] at hr
      simp only [List.getElem?_cons_succ] at hr hj
      exact ih ((publisher createOk l t).2)
        (publisher_preserves_lookup createOk l topic t p hmem) j' h₂ hj hr

/-- C9: publishers are memoized per topic with stable identity — in any
sequence of `publisher` calls on an iceoryx communication layer, two calls
with the same topic string that both succeed return handles to the same
underlying iceoryx publisher. -/
theorem publisher_memoized_per_topic (createOk : String → Bool)
    (l : IceoryxCommunicationLayer) (ts : List String) (topic : String)
    (i j : Nat) (h₁ h₂ : IceoryxPublisher) (hij : i < j)
    (hti : ts[i]? = some topic) (htj : ts[j]? = some topic)
    (hri : (publisherCalls createOk l ts).1[i]? = some (Except.ok h₁))
    (hrj : (publisherCalls createOk l ts).1[j]? = some (Except.ok h₂)) :
    h₂.publisher = h₁.publisher := by
  induction ts generalizing l i j with
  | nil => simp at hti
  | cons t ts ih =>
    cases i with
    | zero =>
      simp at hti
      subst hti
      rw [publisherCalls_cons] at hri
      simp only [List.getElem?_cons_zero, Option.some_inj] at hri
      cases j with
      | zero => omega
      | succ j' =>
        rw [publisherCalls_cons] at hrj
        simp only [List.getElem?_cons_succ] at hrj htj
        have hpair : publisher createOk l t =
            (Except.ok h₁, (publisher createOk l t).2) := by
          rw [← hri]
        have hmem : dictLookup t ((publisher createOk l t).2).publishers =
            some h₁.publisher :=
          publisher_establishes_mem createOk l ((publisher createOk l t).2) t h₁ hpair
        have hres := publisherCalls_result_of_mem createOk t h₁.publisher ts
          ((publisher createOk l t).2) hmem j' h₂ htj hrj
        rw [hres]
    | succ i' =>
      cases j with
      | zero => omega
      | succ j' =>
        rw [publisherCalls_cons] at hri hrj
        simp only [List.getElem?_cons_succ] at hri hrj hti htj
        exact ih ((publisher createOk l t).2) i' j' (by omega) hti htj hri hrj

/-- Witness for C9: on a fresh layer, the call sequence `t, u, t` returns
publisher ids `0, 1, 0` — the first and third call hand out the same
underlying publisher. -/
theorem publisher_memoized_per_topic_witness :
    (publisherCalls (fun _ => true)
      { group_name := "g", instance_name := "i", publishers := [], nextArcId := 0 }
      ["t", "u", "t"]).1[0]? = some (Except.ok { publisher := 0 }) ∧
    (publisherCalls (fun _ => true)
      { group_name := "g", instance_name := "i", publishers := [], nextArcId := 0 }
      ["t", "u", "t"]).1[2]? = some (Except.ok { publisher := 0 }) ∧
    ({ publisher := 0 } : IceoryxPublisher).publisher =
      ({ publisher := 0 } : IceoryxPublisher).publisher :=
  ⟨rfl, rfl,
   publisher_memoized_per_topic (fun _ => true)
     { group_name := "g", instance_name := "i", publishers := [], nextArcId := 0 }
     ["t", "u", "t"] "t" 0 2 { publisher := 0 } { publisher := 0 }
     (by decide) (by rfl) (by rfl) (by rfl) (by rfl)⟩

/-- C10: `IceoryxReceiver::recv` is infallible at the interface — it
returns `Ok(Some(sample))` when a sample is queued and `Ok(None)`
otherwise; no call produces the `Err` branch of its result type. -/
theorem recv_never_errors (r : IceoryxReceiver) :
    (recv r).1 = Except.ok r.queue.head? ∧
    ∀ e : Unit, (recv r).1 ≠ Except.error e := by
  cases r with
  | mk q =>
    cases q with
    | nil => exact ⟨rfl, fun e h => Except.noConfusion h⟩
    | cons sample rest => exact ⟨rfl, fun e h => Except.noConfusion h⟩

end Dora
